import Mathlib

/-!
Verification development for the diffusion-model core of pynams
(`diffusion.py`): the 1D finite-slab diffusion model, its separable 3D
extension, the whole-block path-integrated model, and the Arrhenius line
fit.  The Python source is embedded shallowly: numpy arrays become Lean
lists or index functions over `ℝ`, the external transcendental primitives
(`scipy.special.erf`, `exp`, `cos`, `sqrt`, powers of ten) are the
corresponding Mathlib real functions, and every early `return` of the
source becomes a constructor of an explicit result type.  A second, small
model over `ℚ` with explicit IEEE-style special values (`nan`, infinities)
captures the floating-point behaviour of the erf branch at `t = 0`.
-/

namespace Pynams

/-- Gauss error function: the mathematical function computed by
`scipy.special.erf`, `erf x = 2/√π · ∫ u in 0..x, exp (-u²)`. -/
noncomputable def erf (x : ℝ) : ℝ :=
  2 / Real.sqrt Real.pi * ∫ u in (0:ℝ)..x, Real.exp (-(u ^ 2))

/-- Element `i` of `numpy.linspace(a, b, n)`: `n` evenly spaced samples
from `a` to `b` inclusive (`a + i·(b-a)/(n-1)`; a single sample is `a`). -/
noncomputable def linspace (a b : ℝ) (n : ℕ) (i : ℕ) : ℝ :=
  if n ≤ 1 then a else a + (i : ℝ) * ((b - a) / ((n : ℝ) - 1))

/-- The full `numpy.linspace(a, b, n)` array as a list. -/
noncomputable def linspaceList (a b : ℝ) (n : ℕ) : List ℝ :=
  (List.range n).map (linspace a b n)

/-- Value part of the lmfit parameter set built by `params_setup1D`
(`diffusion.py`, lines 52-63).  The vary flags of the lmfit parameters
never influence `diffusion1D_params` (it reads `params.valuesdict()`
only), so they are not carried here. -/
structure Params1D where
  microns : ℝ
  log10D_m2s : ℝ
  time_seconds : ℝ
  initial_unit_value : ℝ
  final_unit_value : ℝ

/-- Result of `diffusion1D_params`.  `noneRet` is the bare `return` taken
after printing `no negative time` (line 108-110); `falseRet` is the
`return False` for an unrecognized `erf_or_sum` selector (line 161);
`profile` is the synthesis-mode pair `x_microns, model` (line 174);
`residual` is the fitting-mode value `model - data_y_unit_areas`
(line 175). -/
inductive Res1D where
  | noneRet
  | falseRet
  | profile (x_microns : List ℝ) (model : List ℝ)
  | residual (res : List ℝ)

/-- One element of the series ("infsum") solution, lines 131-148:
`(Σ_{n<infinity} (-1)ⁿ/(2n+1) · exp(-D(2n+1)²π²t/(2a)²) · cos((2n+1)πx/2a)) · 4/π`. -/
noncomputable def infsum_model (D t twoA : ℝ) (infinity : ℕ) (xi : ℝ) : ℝ :=
  (∑ n ∈ Finset.range infinity,
      ((-1 : ℝ) ^ n / (2 * (n : ℝ) + 1)) *
        Real.exp (-D * (2 * (n : ℝ) + 1) ^ 2 * Real.pi ^ 2 * t / twoA ^ 2) *
        Real.cos ((2 * (n : ℝ) + 1) * Real.pi * xi / twoA)) * 4 / Real.pi

/-- One element of the erf solution, lines 151-154:
`erf((a+x)/(2√(Dt))) + erf((a-x)/(2√(Dt))) - 1`.  The source computes
`sqrtDt = (D*t)**0.5`; on the reachable path `D > 0` and `t ≥ 0`, where
`(D*t)**0.5 = Real.sqrt (D*t)`. -/
noncomputable def erf_model (D t a_meters : ℝ) (xi : ℝ) : ℝ :=
  erf ((a_meters + xi) / (2 * Real.sqrt (D * t))) +
    erf ((a_meters - xi) / (2 * Real.sqrt (D * t))) - 1

/-- Method dispatch of `diffusion1D_params`, lines 131-161: the `infsum`
branch, the `erf` branch, or (for any other selector) the error return. -/
noncomputable def diffusion1D_shape (D t a_meters twoA : ℝ) (erf_or_sum : String)
    (infinity : ℕ) (x : List ℝ) : Option (List ℝ) :=
  if erf_or_sum = "infsum" then some (x.map (infsum_model D t twoA infinity))
  else if erf_or_sum = "erf" then some (x.map (erf_model D t a_meters))
  else none

/-- Shallow embedding of `diffusion1D_params` (`diffusion.py`, lines
65-175).  `fit` plays the role of the `fitting` flag together with the
validated data: it is `some (dx, dy)` exactly when both data arrays are
supplied and have equal length (lines 113-120; on a length mismatch the
source only prints a message, leaves `fitting = False` and continues in
synthesis mode).  The direction handling (lines 96-103), the `t < 0`
guard (108-110), position construction (122-129), method dispatch
(131-161), the diffusion-in reflection (163-164), rescaling (166-167)
and the final returns (173-175) are mirrored in order. -/
noncomputable def diffusion1D_params (p : Params1D)
    (data_x_microns data_y_unit_areas : Option (List ℝ))
    (erf_or_sum : String) (need_to_center_x_data : Bool)
    (infinity points : ℕ) : Res1D :=
  let L_meters := p.microns / 1e6
  let t := p.time_seconds
  let D := (10 : ℝ) ^ p.log10D_m2s
  let initial_value := p.initial_unit_value
  let final_value := p.final_unit_value
  -- going_out, solubility, minimum_value of lines 96-103
  let solubility := if initial_value > final_value then initial_value else final_value
  let minimum_value := if initial_value > final_value then final_value else initial_value
  let a_meters := L_meters / 2
  let twoA := L_meters
  if t < 0 then Res1D.noneRet
  else
    let fit : Option (List ℝ × List ℝ) :=
      match data_x_microns, data_y_unit_areas with
      | some dx, some dy => if dx.length = dy.length then some (dx, dy) else none
      | _, _ => none
    let x : List ℝ :=
      match fit with
      | some (dx, _) =>
          if need_to_center_x_data then dx.map (fun v => v / 1e6 - a_meters)
          else dx.map (fun v => v / 1e6)
      | none => linspaceList (-a_meters) a_meters points
    match diffusion1D_shape D t a_meters twoA erf_or_sum infinity x with
    | none => Res1D.falseRet
    | some shape =>
      let model0 := if initial_value > final_value then shape
        else shape.map (fun v => 1 - v)
      let model := model0.map (fun v => v * (solubility - minimum_value) + minimum_value)
      match fit with
      | none => Res1D.profile (x.map (fun v => v * 1e6)) model
      | some (_, dy) => Res1D.residual (List.zipWith (fun a b => a - b) model dy)

/-- Synthesis-mode output of the 1D model: the `(x_microns, model)` pair
returned by `diffusion1D_params` when no data are supplied (empty lists
on the error returns). -/
noncomputable def synthProfile1D (p : Params1D) (erf_or_sum : String) (c : Bool)
    (infinity points : ℕ) : List ℝ × List ℝ :=
  match diffusion1D_params p none none erf_or_sum c infinity points with
  | Res1D.profile x y => (x, y)
  | _ => ([], [])

/-- The per-position function applied by `diffusion1D_shape` for a
valid method selector. -/
noncomputable def shape_fun (p : Params1D) (m : String) (infinity : ℕ) : ℝ → ℝ :=
  if m = "infsum" then
    infsum_model ((10 : ℝ) ^ p.log10D_m2s) p.time_seconds (p.microns / 1e6) infinity
  else erf_model ((10 : ℝ) ^ p.log10D_m2s) p.time_seconds (p.microns / 1e6 / 2)

/-- The synthesis-mode position array `x_microns` of `diffusion1D_params`:
`np.linspace(-a, a, points) * 1e6`. -/
noncomputable def synth_x (p : Params1D) (points : ℕ) : List ℝ :=
  (linspaceList (-(p.microns / 1e6 / 2)) (p.microns / 1e6 / 2) points).map (fun v => v * 1e6)

/-- The synthesis-mode model array of `diffusion1D_params`: the shape on
the linspace positions, reflected when diffusing in, then rescaled into
`[minimum_value, solubility]`. -/
noncomputable def synth_model (p : Params1D) (m : String) (infinity points : ℕ) : List ℝ :=
  let a := p.microns / 1e6 / 2
  let shape := (linspaceList (-a) a points).map (shape_fun p m infinity)
  let model0 := if p.initial_unit_value > p.final_unit_value then shape
    else shape.map (fun v => 1 - v)
  model0.map (fun v =>
    v * ((if p.initial_unit_value > p.final_unit_value then p.initial_unit_value
          else p.final_unit_value) -
         (if p.initial_unit_value > p.final_unit_value then p.final_unit_value
          else p.initial_unit_value)) +
      (if p.initial_unit_value > p.final_unit_value then p.final_unit_value
       else p.initial_unit_value))

/-- Value part of the lmfit parameter set built by `params_setup3D`
(`diffusion.py`, lines 248-270).  As in `Params1D` the vary flags are
dropped: `diffusion3Dnpi_params` reads them (lines 301-311) but passes
them only as vary flags to the inner lmfit parameters, which
`diffusion1D_params` ignores. -/
structure Params3D where
  microns3 : Fin 3 → ℝ
  log10Dx : ℝ
  log10Dy : ℝ
  log10Dz : ℝ
  time_seconds : ℝ
  initial_unit_value_a : ℝ
  initial_unit_value_b : ℝ
  initial_unit_value_c : ℝ
  final_unit_value_a : ℝ
  final_unit_value_b : ℝ
  final_unit_value_c : ℝ

/-- The `log10D3` list of line 308: `[p['log10Dx'], p['log10Dy'], p['log10Dz']]`. -/
noncomputable def log10D3 (p : Params3D) : Fin 3 → ℝ := ![p.log10Dx, p.log10Dy, p.log10Dz]

/-- State threaded through the normalization loop of
`diffusion3Dnpi_params` (lines 313-321). -/
structure PrescaleState where
  init : ℝ
  scale : ℝ
  going_out : Bool

/-- One iteration of the loop `for k in range(3)` of lines 316-321:
`if init > 1.0: scale = init; init = 1.` then
`if init < fin: going_out = False`. -/
noncomputable def npi_prescale_step (fin0 : ℝ) (st : PrescaleState) : PrescaleState :=
  let st1 := if st.init > 1 then { st with scale := st.init, init := 1 } else st
  if st1.init < fin0 then { st1 with going_out := false } else st1

/-- The loop of lines 314-321, started from `going_out = True`,
`scale = 1.` and run three times. -/
noncomputable def npi_prescale (init0 fin0 : ℝ) : PrescaleState :=
  npi_prescale_step fin0 (npi_prescale_step fin0 (npi_prescale_step fin0 ⟨init0, 1, true⟩))

/-- State after the normalization loop, for the shared boundary values:
`diffusion3Dnpi_params` reads only the `a` parameters as values (lines
300 and 304), so `init = p['initial_unit_value_a']` and
`fin = p['final_unit_value_a']` feed the loop. -/
noncomputable def npi_state (p : Params3D) : PrescaleState :=
  npi_prescale p.initial_unit_value_a p.final_unit_value_a

/-- `minimum_value` of lines 323-326 (computed from the possibly
rescaled `init` and the untouched `fin`). -/
noncomputable def npi_minimum_value (p : Params3D) : ℝ :=
  if (npi_state p).init > p.final_unit_value_a then p.final_unit_value_a else (npi_state p).init

/-- The `init` actually passed to the three 1D models: after the swap
`init, fin = fin, init` of line 332 when diffusion goes in. -/
noncomputable def npi_initF (p : Params3D) : ℝ :=
  if (npi_state p).going_out then (npi_state p).init else p.final_unit_value_a

/-- The `fin` actually passed to the three 1D models (line 332). -/
noncomputable def npi_finF (p : Params3D) : ℝ :=
  if (npi_state p).going_out then p.final_unit_value_a else (npi_state p).init

/-- The inner 1D lmfit parameters built in the loop of lines 339-345:
axis length, shared time, per-axis diffusivity, shared (swapped)
boundary values. -/
noncomputable def p1D_of (p : Params3D) (init fin0 : ℝ) (k : Fin 3) : Params1D :=
  { microns := p.microns3 k
    log10D_m2s := log10D3 p k
    time_seconds := p.time_seconds
    initial_unit_value := init
    final_unit_value := fin0 }

/-- The axis-`k` call `diffusion1D_params(p1D, **kwdict)` of line 347:
only the `points` keyword is forwarded, so the 1D model runs with data
`None`, method `erf`, centering `True` and `infinity = 100`. -/
noncomputable def npi_prof (p : Params3D) (points : ℕ) (k : Fin 3) : Res1D :=
  diffusion1D_params (p1D_of p (npi_initF p) (npi_finF p) k) none none "erf" true 100 points

/-- The `y`-array unpacked from the axis-`k` 1D call (`yprofiles[k]`,
lines 347-350); empty on the error returns, which cannot occur when
`time_seconds ≥ 0`. -/
noncomputable def npi_y (p : Params3D) (points : ℕ) (k : Fin 3) : List ℝ :=
  match npi_prof p points k with
  | Res1D.profile _ y => y
  | _ => []

/-- `np.shape(x) == np.shape(y)` for the rectangular list-of-rows data
the 3D models are given. -/
def shapeEq (dx dy : List (List ℝ)) : Bool :=
  dx.length == dy.length && dx.map List.length == dy.map List.length

/-- Output bundle of `diffusion3Dnpi_params` in synthesis mode, line
384: the full matrix `v` (as an index function; the source array holds
its values at indices below `points`), the three central slice profiles,
and the slice positions. -/
structure NpiOutput where
  v : ℕ → ℕ → ℕ → ℝ
  sliceprofiles : Fin 3 → ℕ → ℝ
  slice_positions : Fin 3 → ℕ → ℝ

/-- Result of `diffusion3Dnpi_params`.  `crash` is the `TypeError` raised
at line 347 when the inner 1D call returns `None` (negative time);
`residuals` is the placeholder `np.zeros_like(sliceprofiles)` of lines
386-388. -/
inductive Res3D where
  | crash
  | output (o : NpiOutput)
  | residuals (res : List (List ℝ))

/-- Shallow embedding of `diffusion3Dnpi_params` (`diffusion.py`, lines
272-388).  `fit` is `some` data exactly when both arrays are supplied
with equal shapes (lines 285-295).  The field is built cell by cell as
`yprofiles[0][d]*yprofiles[1][e]*yprofiles[2][f]` (lines 354-358), then
multiplied by `scale` (line 360) and, for diffusion in, reflected and
shifted by `minimum_value` (lines 362-364).  `mid = points/2` (line 366;
a float in Python 2 whose use as an index truncates).  Slice positions
are `np.linspace(0, a*2., points)` with `a = L3_microns[k]/2.` (lines
373-377). -/
noncomputable def diffusion3Dnpi_params (p : Params3D)
    (data_x_microns data_y_unit_areas : Option (List (List ℝ)))
    (erf_or_sum : String) (need_to_center_x_data : Bool)
    (infinity points : ℕ) : Res3D :=
  let fit : Option (List (List ℝ) × List (List ℝ)) :=
    match data_x_microns, data_y_unit_areas with
    | some dx, some dy => if shapeEq dx dy then some (dx, dy) else none
    | _, _ => none
  match npi_prof p points 0, npi_prof p points 1, npi_prof p points 2 with
  | Res1D.profile _ y0, Res1D.profile _ y1, Res1D.profile _ y2 =>
    let v0 : ℕ → ℕ → ℕ → ℝ := fun d e f => y0.getD d 0 * y1.getD e 0 * y2.getD f 0
    let v1 : ℕ → ℕ → ℕ → ℝ := fun d e f => v0 d e f * (npi_state p).scale
    let v : ℕ → ℕ → ℕ → ℝ :=
      if (npi_state p).going_out then v1
      else fun d e f => 1 - v1 d e f + npi_minimum_value p
    let mid := points / 2
    let sliceprofiles : Fin 3 → ℕ → ℝ :=
      ![fun d => v d mid mid, fun e => v mid e mid, fun f => v mid mid f]
    let slice_positions : Fin 3 → ℕ → ℝ :=
      fun k => linspace 0 ((p.microns3 k / 2) * 2) points
    match fit with
    | none => Res3D.output ⟨v, sliceprofiles, slice_positions⟩
    | some _ => Res3D.residuals (List.replicate 3 (List.replicate points 0))
  | _, _, _ => Res3D.crash

/-- The scale/boundary correction applied to each cell of the product
field: multiplication by `scale` (line 360) followed, for diffusion in,
by the reflection and shift of lines 362-364. -/
noncomputable def npi_correction (p : Params3D) (w : ℝ) : ℝ :=
  if (npi_state p).going_out then w * (npi_state p).scale
  else 1 - w * (npi_state p).scale + npi_minimum_value p

/-- Closed form of each cell of the 3D field in synthesis mode: the
scale/boundary correction of the product of the three per-axis 1D
profile values. -/
noncomputable def npiFieldSpec (p : Params3D) (points : ℕ) (d e f : ℕ) : ℝ :=
  npi_correction p
    ((npi_y p points 0).getD d 0 * (npi_y p points 1).getD e 0 * (npi_y p points 2).getD f 0)

/-- Closed form of the whole synthesis-mode output of
`diffusion3Dnpi_params`. -/
noncomputable def npiOutputSpec (p : Params3D) (points : ℕ) : NpiOutput :=
  ⟨npiFieldSpec p points,
   ![fun d => npiFieldSpec p points d (points / 2) (points / 2),
     fun e => npiFieldSpec p points (points / 2) e (points / 2),
     fun f => npiFieldSpec p points (points / 2) (points / 2) f],
   fun k => linspace 0 ((p.microns3 k / 2) * 2) points⟩

/-- The 3D concentration field computed by `diffusion3Dnpi_params` in
synthesis mode (zero on the unreachable error results). -/
noncomputable def npiField (p : Params3D) (points : ℕ) : ℕ → ℕ → ℕ → ℝ :=
  match diffusion3Dnpi_params p none none "erf" true 100 points with
  | Res3D.output o => o.v
  | _ => fun _ _ _ => 0

/-- `np.abs(xs - target).argmin()` over the first `n` entries of `xs`:
the first index minimizing the absolute difference (line 504). -/
noncomputable def argminAbs (xs : ℕ → ℝ) (n : ℕ) (target : ℝ) : ℕ :=
  (List.range n).foldl (fun best i => if |xs i - target| < |xs best - target| then i else best) 0

/-- Result of `diffusion3Dwb_params`.  `noneRet` collects the bare
`return`s: missing raypaths (lines 410-412) and an invalid ray-path
label (lines 448-450, 456-458, 464-466); `crash` is the unpack failure
of line 416 when the inner 3D call cannot produce profiles. -/
inductive ResWb where
  | noneRet
  | crash
  | output (wb_positions : Fin 3 → ℕ → ℝ) (wb_profiles : Fin 3 → ℕ → ℝ)
  | residuals (res : List ℝ)

/-- Shallow embedding of `diffusion3Dwb_params` (`diffusion.py`, lines
403-513).  The raypaths argument is the list of three direction labels;
the inner `diffusion3Dnpi_params` call (line 416) forwards `points`,
`erf_or_sum` and `need_to_center_x_data` but not `infinity` (so the
inner default 100 applies) and no data.  The three averaged planes are
`v.mean(axis=0/1/2)` (lines 438-440), `mid = points/2` (integer
division, line 443), and the three profile selections mirror lines
444-466 in order, each `else` branch printing and returning `None`.
Plotting (lines 478-488) has no effect on the returned value and is
omitted.  The fitting branch (lines 493-513) matches each measured
position to the nearest model grid point and concatenates the residuals
in direction order a, b, c. -/
noncomputable def diffusion3Dwb_params (p : Params3D)
    (data_x_microns data_y_unit_areas : Option (List (List ℝ)))
    (raypaths : Option (String × String × String))
    (erf_or_sum : String) (need_to_center_x_data : Bool)
    (infinity points : ℕ) : ResWb :=
  match raypaths with
  | none => ResWb.noneRet
  | some (rp0, rp1, rp2) =>
    match diffusion3Dnpi_params p none none erf_or_sum need_to_center_x_data 100 points with
    | Res3D.output o =>
      let fit : Option (List (List ℝ) × List (List ℝ)) :=
        match data_x_microns, data_y_unit_areas with
        | some dx, some dy => if shapeEq dx dy then some (dx, dy) else none
        | _, _ => none
      let v := o.v
      let raypathA : ℕ → ℕ → ℝ := fun e f => (∑ d ∈ Finset.range points, v d e f) / points
      let raypathB : ℕ → ℕ → ℝ := fun d f => (∑ e ∈ Finset.range points, v d e f) / points
      let raypathC : ℕ → ℕ → ℝ := fun d e => (∑ f ∈ Finset.range points, v d e f) / points
      let mid := points / 2
      match (if rp0 = "b" then some (fun d => raypathB d mid)
             else if rp0 = "c" then some (fun d => raypathC d mid)
             else none : Option (ℕ → ℝ)) with
      | none => ResWb.noneRet
      | some wbA =>
        match (if rp1 = "a" then some (fun e => raypathA e mid)
               else if rp1 = "c" then some (fun e => raypathC mid e)
               else none : Option (ℕ → ℝ)) with
        | none => ResWb.noneRet
        | some wbB =>
          match (if rp2 = "a" then some (fun f => raypathA mid f)
                 else if rp2 = "b" then some (fun f => raypathB mid f)
                 else none : Option (ℕ → ℝ)) with
          | none => ResWb.noneRet
          | some wbC =>
            let wb_profiles : Fin 3 → ℕ → ℝ := ![wbA, wbB, wbC]
            let wb_positions : Fin 3 → ℕ → ℝ :=
              fun k => linspace 0 (2 * (p.microns3 k / 2)) points
            match fit with
            | none => ResWb.output wb_positions wb_profiles
            | some (dx, dy) =>
              ResWb.residuals
                ((List.finRange 3).flatMap (fun k =>
                  (List.range (dx.getD k []).length).map (fun pos =>
                    let microns := (dx.getD k []).getD pos 0
                    let idx := argminAbs (wb_positions k) points microns
                    wb_profiles k idx - (dy.getD k []).getD pos 0)))
    | _ => ResWb.crash

/-- Degree-1 least-squares fit `np.polyfit(xs, ys, 1)`, written through
the normal equations: slope `(nΣxy - ΣxΣy)/(nΣx² - (Σx)²)` and intercept
`(Σy - slope·Σx)/n`.  When the data admit an exact linear fit and the
`xs` are not all equal this is the unique least-squares solution, which
is the only property relied on below. -/
noncomputable def polyfit1 (xs ys : List ℝ) : ℝ × ℝ :=
  let n : ℝ := xs.length
  let sx := xs.sum
  let sy := ys.sum
  let sxx := (xs.map (fun v => v * v)).sum
  let sxy := (List.zipWith (fun a b => a * b) xs ys).sum
  let slope := (n * sxy - sx * sy) / (n * sxx - sx * sx)
  (slope, (sy - slope * sx) / n)

/-- Shallow embedding of `make_Arrhenius_line` (`diffusion.py`, lines
527-539): on a length mismatch it prints and returns `None`; otherwise
it maps temperatures to `1.0e4/(T+273.15)`, fits a degree-1 polynomial
of `logD` against inverse temperature, and evaluates the fit
(`np.polyval`: `slope·x + intercept`) on `np.linspace(lowD, highD, 100)`. -/
noncomputable def make_Arrhenius_line (celcius_list logD_list : List ℝ)
    (lowD highD : ℝ) : Option ((ℕ → ℝ) × (ℕ → ℝ)) :=
  if celcius_list.length ≠ logD_list.length then none
  else
    let Tx := celcius_list.map (fun k => 1.0e4 / (k + 273.15))
    let p := polyfit1 Tx logD_list
    let x := linspace lowD highD 100
    some (x, fun j => p.1 * x j + p.2)

/-! Floating-point refinement for the erf branch.  The real-number
embedding above cannot express the IEEE-754 special values that the
numpy evaluation of lines 151-154 produces at `t = 0`; the model below
replaces each double by either an exact rational, a signed infinity, or
`nan`, with the IEEE propagation and division rules.  The transcendental
primitives are abstract rational-valued functions (their values never
matter for the claims proved about this model). -/

/-- IEEE-style value: a finite number (represented exactly as a
rational; signed zero is not distinguished), a signed infinity, or
`nan`. -/
inductive F where
  | fin (q : ℚ)
  | posInf
  | negInf
  | nan
deriving DecidableEq

namespace F

/-- IEEE negation. -/
def neg : F → F
  | fin q => fin (-q)
  | posInf => negInf
  | negInf => posInf
  | nan => nan

/-- IEEE addition: `nan` absorbs, opposite infinities give `nan`. -/
def add : F → F → F
  | fin a, fin b => fin (a + b)
  | nan, _ => nan
  | _, nan => nan
  | posInf, negInf => nan
  | negInf, posInf => nan
  | posInf, _ => posInf
  | _, posInf => posInf
  | negInf, _ => negInf
  | _, negInf => negInf

/-- IEEE subtraction `a + (-b)`. -/
def sub (a b : F) : F := a.add b.neg

/-- IEEE multiplication: `nan` absorbs, `0 · ∞ = nan`. -/
def mul : F → F → F
  | fin a, fin b => fin (a * b)
  | nan, _ => nan
  | _, nan => nan
  | posInf, fin b => if b = 0 then nan else if 0 < b then posInf else negInf
  | fin a, posInf => if a = 0 then nan else if 0 < a then posInf else negInf
  | negInf, fin b => if b = 0 then nan else if 0 < b then negInf else posInf
  | fin a, negInf => if a = 0 then nan else if 0 < a then negInf else posInf
  | posInf, posInf => posInf
  | posInf, negInf => negInf
  | negInf, posInf => negInf
  | negInf, negInf => posInf

/-- IEEE division (with unsigned zero): `0/0 = nan`, `x/0 = ±∞` for
`x ≠ 0`, `x/∞ = 0`, `∞/∞ = nan`. -/
def div : F → F → F
  | fin a, fin b =>
      if b = 0 then (if a = 0 then nan else if 0 < a then posInf else negInf)
      else fin (a / b)
  | nan, _ => nan
  | _, nan => nan
  | fin _, posInf => fin 0
  | fin _, negInf => fin 0
  | posInf, fin b => if 0 ≤ b then posInf else negInf
  | negInf, fin b => if 0 ≤ b then negInf else posInf
  | posInf, posInf => nan
  | posInf, negInf => nan
  | negInf, posInf => nan
  | negInf, negInf => nan

/-- The float power `(·)**0.5` used for `sqrtDt`: exact on 0, `nan` on
negative values, otherwise given by an abstract square root on the
finite rationals. -/
def powHalf (sqrtFin : ℚ → ℚ) : F → F
  | fin q => if q = 0 then fin 0 else if q < 0 then nan else fin (sqrtFin q)
  | posInf => posInf
  | negInf => nan
  | nan => nan

/-- `scipy.special.erf` on IEEE values: `erf(±∞) = ±1`, `erf(nan) = nan`,
abstract on finite values. -/
def erfF (erfFin : ℚ → ℚ) : F → F
  | fin q => fin (erfFin q)
  | posInf => fin 1
  | negInf => fin (-1)
  | nan => nan

end F

/-- Parameter values of the 1D model with the floats carried as exact
rationals. -/
structure Params1DF where
  microns : ℚ
  log10D_m2s : ℚ
  time_seconds : ℚ
  initial_unit_value : ℚ
  final_unit_value : ℚ

/-- `numpy.linspace` over the exact rationals (numpy produces the
endpoints exactly). -/
def linspaceQ (a b : ℚ) (n : ℕ) (i : ℕ) : ℚ :=
  if n ≤ 1 then a else a + (i : ℚ) * ((b - a) / ((n : ℚ) - 1))

/-- The full rational linspace array. -/
def linspaceQList (a b : ℚ) (n : ℕ) : List ℚ :=
  (List.range n).map (linspaceQ a b n)

/-- Float-semantics embedding of the erf branch of `diffusion1D_params`
in synthesis mode (`diffusion.py`, lines 88-110, 128-129, 151-154,
163-175 with no data supplied): same control flow as the real-number
embedding, with the arithmetic of lines 151-154 and 163-167 performed on
IEEE-style values so that the divisions by `2*sqrtDt` at `t = 0` produce
infinities and `nan` exactly as numpy does.  `pow10` abstracts
`10.**log10D_m2s` (a finite positive double), `sqrtFin`/`erfFin`
abstract the finite-valued branches of `**0.5` and `scipy.special.erf`. -/
def diffusion1D_paramsF (sqrtFin erfFin pow10 : ℚ → ℚ) (p : Params1DF)
    (points : ℕ) : Option (List ℚ × List F) :=
  let L_meters := p.microns / 1e6
  let t := p.time_seconds
  let D : ℚ := pow10 p.log10D_m2s
  let solubility := if p.initial_unit_value > p.final_unit_value
    then p.initial_unit_value else p.final_unit_value
  let minimum_value := if p.initial_unit_value > p.final_unit_value
    then p.final_unit_value else p.initial_unit_value
  let a_meters := L_meters / 2
  if t < 0 then none
  else
    let x : List ℚ := linspaceQList (-a_meters) a_meters points
    let sqrtDt : F := F.powHalf sqrtFin (F.mul (F.fin D) (F.fin t))
    let shape : List F := x.map (fun xi =>
      F.sub
        (F.add (F.erfF erfFin (F.div (F.fin (a_meters + xi)) (F.mul (F.fin 2) sqrtDt)))
               (F.erfF erfFin (F.div (F.fin (a_meters - xi)) (F.mul (F.fin 2) sqrtDt))))
        (F.fin 1))
    let model0 := if p.initial_unit_value > p.final_unit_value then shape
      else shape.map (fun v => F.sub (F.fin 1) v)
    let model := model0.map (fun v =>
      F.add (F.mul v (F.fin (solubility - minimum_value))) (F.fin minimum_value))
    some (x.map (fun v => v * 1e6), model)

/-! Concrete inputs used to instantiate the theorems below. -/

/-- 1D parameter set with a negative time. -/
noncomputable def PnegT : Params1D := ⟨100, -12, -1, 1, 0⟩

/-- Well-formed 1D parameter set (100 μm, log10 D = -12, one hour,
diffusion out of the slab). -/
noncomputable def Pex : Params1D := ⟨100, -12, 3600, 1, 0⟩

/-- Well-formed 3D parameter set. -/
noncomputable def P3ex : Params3D :=
  ⟨![120, 100, 80], -12, -12.5, -13, 3600, 1, 1, 1, 0, 0, 0⟩

/-- `P3ex` with only the b-axis initial boundary value changed. -/
noncomputable def P3exB : Params3D := { P3ex with initial_unit_value_b := 0.7 }

/-- `P3ex` with only the c-axis final boundary value changed. -/
noncomputable def P3exC : Params3D := { P3ex with final_unit_value_c := 0.3 }

/-- Rational-valued 1D parameter set with `time_seconds = 0`. -/
def PFex : Params1DF := ⟨100, -12, 0, 1, 0⟩

/-! Helper lemmas. -/

theorem zipWith_sub_self (l : List ℝ) :
    List.zipWith (fun a b => a - b) l l = List.replicate l.length 0 := by
  induction l with
  | nil => rfl
  | cons a t ih => simp [ih, List.replicate_succ]

theorem map_mul_div_1e6 (l : List ℝ) :
    (l.map (fun v => v * 1e6)).map (fun v => v / 1e6) = l := by
  rw [List.map_map]
  have h : ((fun v : ℝ => v / 1e6) ∘ fun v : ℝ => v * 1e6) = id := by
    funext v
    show v * 1e6 / 1e6 = v
    exact mul_div_cancel_right₀ v (by norm_num)
  rw [h, List.map_id]

theorem linspaceList_length (a b : ℝ) (n : ℕ) : (linspaceList a b n).length = n := by
  simp [linspaceList]

theorem diffusion1D_shape_valid (p : Params1D) (m : String) (infinity : ℕ)
    (hm : m = "erf" ∨ m = "infsum") (x : List ℝ) :
    diffusion1D_shape ((10 : ℝ) ^ p.log10D_m2s) p.time_seconds (p.microns / 1e6 / 2)
        (p.microns / 1e6) m infinity x = some (x.map (shape_fun p m infinity)) := by
  rcases hm with rfl | rfl <;> simp [diffusion1D_shape, shape_fun]

theorem diffusion1D_params_synth (p : Params1D) (m : String) (c : Bool) (inf pts : ℕ)
    (ht : 0 ≤ p.time_seconds) (hm : m = "erf" ∨ m = "infsum") :
    diffusion1D_params p none none m c inf pts =
      Res1D.profile (synth_x p pts) (synth_model p m inf pts) := by
  have hne : ¬ p.time_seconds < 0 := not_lt.mpr ht
  unfold diffusion1D_params
  dsimp only
  rw [if_neg hne, diffusion1D_shape_valid p m inf hm]
  rfl

theorem synth_model_length (p : Params1D) (m : String) (inf pts : ℕ) :
    (synth_model p m inf pts).length = pts := by
  unfold synth_model
  dsimp only
  split <;> simp [linspaceList_length]

theorem synth_x_length (p : Params1D) (pts : ℕ) : (synth_x p pts).length = pts := by
  simp [synth_x, linspaceList_length]

theorem npi_prof_eq (p : Params3D) (pts : ℕ) (k : Fin 3) (ht : 0 ≤ p.time_seconds) :
    npi_prof p pts k =
      Res1D.profile (synth_x (p1D_of p (npi_initF p) (npi_finF p) k) pts)
        (synth_model (p1D_of p (npi_initF p) (npi_finF p) k) "erf" 100 pts) := by
  unfold npi_prof
  exact diffusion1D_params_synth _ "erf" true 100 pts ht (Or.inl rfl)

theorem diffusion3Dnpi_synth (p : Params3D) (m : String) (c : Bool) (inf pts : ℕ)
    (ht : 0 ≤ p.time_seconds) :
    diffusion3Dnpi_params p none none m c inf pts = Res3D.output (npiOutputSpec p pts) := by
  unfold diffusion3Dnpi_params npiOutputSpec npiFieldSpec npi_correction npi_y
  rw [npi_prof_eq p pts 0 ht, npi_prof_eq p pts 1 ht, npi_prof_eq p pts 2 ht]
  cases hB : (npi_state p).going_out <;>
    simp only [hB, Bool.false_eq_true, if_true, if_false]

/-! Claim C1. -/

/-- C1: for every parameter set with `time_seconds < 0`, the 1D
evaluation `diffusion1D_params` takes the invalid-input error return
(the print-and-`return None` of lines 108-110) whatever data, method and
options it is called with; it never produces a `profile` or `residual`
result. -/
theorem diffusion1D_params_negative_time (p : Params1D)
    (dx dy : Option (List ℝ)) (m : String) (c : Bool) (inf pts : ℕ)
    (ht : p.time_seconds < 0) :
    diffusion1D_params p dx dy m c inf pts = Res1D.noneRet := by
  unfold diffusion1D_params
  rw [if_pos ht]

/-- Witness for C1 at a concrete input: time `-1` second. -/
theorem diffusion1D_params_negative_time_witness :
    PnegT.time_seconds < 0 ∧
      diffusion1D_params PnegT none none "erf" true 100 100 = Res1D.noneRet :=
  ⟨by norm_num [PnegT],
   diffusion1D_params_negative_time PnegT none none "erf" true 100 100 (by norm_num [PnegT])⟩

/-! Claim C2. -/

/-- C2 (divergence witness): when the measured position and
concentration arrays have different lengths, `diffusion1D_params` does
NOT fail: the source prints a complaint (lines 117-120) but leaves
`fitting = False` and continues, so the call behaves exactly like a
synthesis-mode call with no data at all and, in particular, returns the
normal `(x_microns, model)` profile whenever that call does.  This
contradicts the shape-mismatch error required by the claim. -/
theorem diffusion1D_params_mismatch_falls_back_to_synthesis (p : Params1D)
    (dx dy : List ℝ) (m : String) (c : Bool) (inf pts : ℕ)
    (hlen : dx.length ≠ dy.length) :
    diffusion1D_params p (some dx) (some dy) m c inf pts =
      diffusion1D_params p none none m c inf pts := by
  unfold diffusion1D_params
  dsimp only
  rw [if_neg hlen]

/-- Witness for C2 at a concrete mismatched input: two positions, one
concentration. -/
theorem diffusion1D_params_mismatch_witness :
    ([0, 50] : List ℝ).length ≠ ([1] : List ℝ).length ∧
      diffusion1D_params Pex (some [0, 50]) (some [1]) "erf" true 100 100 =
        diffusion1D_params Pex none none "erf" true 100 100 :=
  ⟨by decide,
   diffusion1D_params_mismatch_falls_back_to_synthesis Pex [0, 50] [1] "erf" true 100 100
     (by decide)⟩

/-! Claim C3. -/

/-- C3: for every parameter set with nonnegative time and every valid
method, feeding the synthesis-mode output of `diffusion1D_params` back
into it as measured data at the same positions (without re-centering the
already centered positions) yields the all-zero residual vector: the
residual is exactly `0` at every position. -/
theorem diffusion1D_params_roundtrip (p : Params1D) (m : String) (c : Bool) (inf pts : ℕ)
    (ht : 0 ≤ p.time_seconds) (hm : m = "erf" ∨ m = "infsum") :
    diffusion1D_params p (some (synthProfile1D p m c inf pts).1)
      (some (synthProfile1D p m c inf pts).2) m false inf pts =
      Res1D.residual (List.replicate pts 0) := by
  have hne : ¬ p.time_seconds < 0 := not_lt.mpr ht
  have hsp : synthProfile1D p m c inf pts = (synth_x p pts, synth_model p m inf pts) := by
    unfold synthProfile1D
    rw [diffusion1D_params_synth p m c inf pts ht hm]
  rw [hsp]
  unfold diffusion1D_params
  dsimp only
  rw [if_neg hne,
    if_pos ((synth_x_length p pts).trans (synth_model_length p m inf pts).symm)]
  have hx : (synth_x p pts).map (fun v => v / 1e6) =
      linspaceList (-(p.microns / 1e6 / 2)) (p.microns / 1e6 / 2) pts := by
    unfold synth_x
    exact map_mul_div_1e6 _
  simp only [Bool.false_eq_true, if_false, hx,
    diffusion1D_shape_valid p m inf hm]
  have hmod :
      ((if p.initial_unit_value > p.final_unit_value then
          (linspaceList (-(p.microns / 1e6 / 2)) (p.microns / 1e6 / 2) pts).map
            (shape_fun p m inf)
        else ((linspaceList (-(p.microns / 1e6 / 2)) (p.microns / 1e6 / 2) pts).map
            (shape_fun p m inf)).map (fun v => 1 - v)).map
        (fun v =>
          v * ((if p.initial_unit_value > p.final_unit_value then p.initial_unit_value
                else p.final_unit_value) -
               (if p.initial_unit_value > p.final_unit_value then p.final_unit_value
                else p.initial_unit_value)) +
            (if p.initial_unit_value > p.final_unit_value then p.final_unit_value
             else p.initial_unit_value))) = synth_model p m inf pts := rfl
  rw [hmod, zipWith_sub_self, synth_model_length]

/-- Witness for C3 at a concrete input: 100 μm, one hour, erf method,
four points. -/
theorem diffusion1D_params_roundtrip_witness :
    diffusion1D_params Pex (some (synthProfile1D Pex "erf" true 100 4).1)
      (some (synthProfile1D Pex "erf" true 100 4).2) "erf" false 100 4 =
      Res1D.residual (List.replicate 4 0) :=
  diffusion1D_params_roundtrip Pex "erf" true 100 4 (by norm_num [Pex]) (Or.inl rfl)

theorem npiField_eq (p : Params3D) (pts : ℕ) (ht : 0 ≤ p.time_seconds) :
    npiField p pts = npiFieldSpec p pts := by
  unfold npiField
  rw [diffusion3Dnpi_synth p "erf" true 100 pts ht]
  rfl

/-! Claim C5. -/

/-- C5: for every valid 3D parameter set (nonnegative time) and all grid
indices, each cell of the synthesis-mode 3D field equals the product of
the three per-axis 1D profile values at the corresponding indices with
the scale/boundary correction (`npi_correction`: multiplication by the
recorded scale, plus the diffusion-in reflection/shift) applied —
exactly, as an identity of real numbers. -/
theorem diffusion3Dnpi_separability (p : Params3D) (m : String) (c : Bool)
    (inf pts : ℕ) (i j k : ℕ) (ht : 0 ≤ p.time_seconds) (o : NpiOutput)
    (ho : diffusion3Dnpi_params p none none m c inf pts = Res3D.output o) :
    o.v i j k =
      npi_correction p
        ((npi_y p pts 0).getD i 0 * (npi_y p pts 1).getD j 0 * (npi_y p pts 2).getD k 0) := by
  rw [diffusion3Dnpi_synth p m c inf pts ht] at ho
  cases ho
  rfl

/-- Witness for C5 at a concrete input: `P3ex` with a 4-point grid, cell
(0,1,2). -/
theorem diffusion3Dnpi_separability_witness :
    (npiOutputSpec P3ex 4).v 0 1 2 =
      npi_correction P3ex
        ((npi_y P3ex 4 0).getD 0 0 * (npi_y P3ex 4 1).getD 1 0 * (npi_y P3ex 4 2).getD 2 0) :=
  diffusion3Dnpi_separability P3ex "erf" true 100 4 0 1 2 (by norm_num [P3ex])
    (npiOutputSpec P3ex 4) (diffusion3Dnpi_synth P3ex "erf" true 100 4 (by norm_num [P3ex]))

/-! Claim C6. -/

/-- C6: for every valid whole-block evaluation (nonnegative time, valid
ray paths for the other two directions) in synthesis mode, the output
profile for direction `a` under ray path `b` is exactly the mean of the
3D concentration field over axis 1, sliced at the center index
`points/2` of axis 2. -/
theorem diffusion3Dwb_profile_a_raypath_b (p : Params3D) (rp1 rp2 m : String)
    (c : Bool) (inf pts : ℕ) (ht : 0 ≤ p.time_seconds)
    (h1 : rp1 = "a" ∨ rp1 = "c") (h2 : rp2 = "a" ∨ rp2 = "b") :
    ∃ wbpos wbprof,
      diffusion3Dwb_params p none none (some ("b", rp1, rp2)) m c inf pts =
        ResWb.output wbpos wbprof ∧
      ∀ i, wbprof 0 i = (∑ e ∈ Finset.range pts, npiField p pts i e (pts / 2)) / pts := by
  unfold diffusion3Dwb_params
  rw [diffusion3Dnpi_synth p m c 100 pts ht]
  dsimp only
  rcases h1 with rfl | rfl <;> rcases h2 with rfl | rfl <;>
    · simp only [String.reduceEq, reduceIte]
      refine ⟨_, _, rfl, fun i => ?_⟩
      rw [npiField_eq p pts ht]
      simp only [Matrix.cons_val_zero]
      rfl

/-- Witness for C6: `P3ex`, ray paths `("b", "a", "a")`, 4-point grid,
instantiated at index 1. -/
theorem diffusion3Dwb_profile_a_raypath_b_witness :
    ∃ wbpos wbprof,
      diffusion3Dwb_params P3ex none none (some ("b", "a", "a")) "erf" true 100 4 =
        ResWb.output wbpos wbprof ∧
      ∀ i, wbprof 0 i = (∑ e ∈ Finset.range 4, npiField P3ex 4 i e (4 / 2)) / 4 :=
  diffusion3Dwb_profile_a_raypath_b P3ex "a" "a" "erf" true 100 4
    (by norm_num [P3ex]) (Or.inl rfl) (Or.inl rfl)

/-! Claim C7. -/

/-- C7: whenever some ray-path label is not one of the two valid choices
for its direction, the whole-block evaluation (with any data) takes the
invalid-configuration error return (`print` and bare `return`, lines
448-450, 456-458, 464-466) and produces no profiles, positions or
residuals. -/
theorem diffusion3Dwb_invalid_raypath (p : Params3D) (rp0 rp1 rp2 : String)
    (dxo dyo : Option (List (List ℝ))) (m : String) (c : Bool) (inf pts : ℕ)
    (ht : 0 ≤ p.time_seconds)
    (hbad : ¬((rp0 = "b" ∨ rp0 = "c") ∧ (rp1 = "a" ∨ rp1 = "c") ∧
        (rp2 = "a" ∨ rp2 = "b"))) :
    diffusion3Dwb_params p dxo dyo (some (rp0, rp1, rp2)) m c inf pts = ResWb.noneRet := by
  unfold diffusion3Dwb_params
  rw [diffusion3Dnpi_synth p m c 100 pts ht]
  dsimp only
  have hsplit : ¬(rp0 = "b" ∨ rp0 = "c") ∨ ¬(rp1 = "a" ∨ rp1 = "c") ∨
      ¬(rp2 = "a" ∨ rp2 = "b") := by tauto
  rcases hsplit with h | h | h <;> push_neg at h
  · simp only [h.1, h.2, reduceIte]
  · simp only [h.1, h.2, reduceIte]
    split <;> rfl
  · simp only [h.1, h.2, reduceIte]
    split
    · rfl
    · split <;> rfl

/-- Witness for C7 at the concrete invalid configuration
`raypaths = ("a", "a", "a")`. -/
theorem diffusion3Dwb_invalid_raypath_witness :
    diffusion3Dwb_params P3ex none none (some ("a", "a", "a")) "erf" true 100 4 =
      ResWb.noneRet :=
  diffusion3Dwb_invalid_raypath P3ex "a" "a" "a" none none "erf" true 100 4
    (by norm_num [P3ex]) (by intro h; exact absurd h.1 (by decide))

/-! Claim C8. -/

/-- C8 counterexample: two 3D parameter sets that differ only in the
b-axis initial boundary value produce the SAME result — the model reads
only the a-axis boundary values (`diffusion.py`, lines 300 and 304: the
b/c parameters contribute only their vary flags), so the claimed
per-axis dependence is absent. -/
theorem diffusion3Dnpi_bc_boundary_counterexample :
    P3ex.initial_unit_value_b ≠ P3exB.initial_unit_value_b ∧
      diffusion3Dnpi_params P3ex none none "erf" true 100 4 =
        diffusion3Dnpi_params P3exB none none "erf" true 100 4 :=
  ⟨by norm_num [P3ex, P3exB], rfl⟩

/-- C8 (amended): the 3D non-path-integrated model evaluates all three
axis profiles with the shared a-axis initial and final boundary values;
any two parameter sets that agree on the lengths, diffusivities, time
and the a-axis boundary values — whatever their b- and c-axis boundary
values — produce identical results. -/
theorem diffusion3Dnpi_ignores_bc_boundaries (p q : Params3D)
    (hm3 : p.microns3 = q.microns3) (hdx : p.log10Dx = q.log10Dx)
    (hdy : p.log10Dy = q.log10Dy) (hdz : p.log10Dz = q.log10Dz)
    (ht : p.time_seconds = q.time_seconds)
    (hia : p.initial_unit_value_a = q.initial_unit_value_a)
    (hfa : p.final_unit_value_a = q.final_unit_value_a)
    (dxo dyo : Option (List (List ℝ))) (m : String) (c : Bool) (inf pts : ℕ) :
    diffusion3Dnpi_params p dxo dyo m c inf pts =
      diffusion3Dnpi_params q dxo dyo m c inf pts := by
  obtain ⟨m3, dx, dy, dz, t, ia, ib, ic, fa, fb, fc⟩ := p
  obtain ⟨m3', dx', dy', dz', t', ia', ib', ic', fa', fb', fc'⟩ := q
  dsimp only at hm3 hdx hdy hdz ht hia hfa
  subst hm3 hdx hdy hdz ht hia hfa
  rfl

/-- Witness for the amended C8: `P3ex` against `P3ex` with a changed
c-axis final boundary value. -/
theorem diffusion3Dnpi_ignores_bc_boundaries_witness :
    diffusion3Dnpi_params P3ex none none "erf" true 100 4 =
      diffusion3Dnpi_params P3exC none none "erf" true 100 4 :=
  diffusion3Dnpi_ignores_bc_boundaries P3ex P3exC rfl rfl rfl rfl rfl rfl rfl
    none none "erf" true 100 4

/-! Claim C9. -/

theorem sum_map_affine (m b : ℝ) (l : List ℝ) :
    (l.map (fun v => m * v + b)).sum = m * l.sum + b * l.length := by
  induction l with
  | nil => simp
  | cons a t ih =>
    simp only [List.map_cons, List.sum_cons, ih, List.length_cons, Nat.cast_add, Nat.cast_one]
    ring

theorem sum_zip_affine (m b : ℝ) (l : List ℝ) :
    (List.zipWith (fun a b => a * b) l (l.map (fun v => m * v + b))).sum =
      m * (l.map (fun v => v * v)).sum + b * l.sum := by
  induction l with
  | nil => simp
  | cons a t ih =>
    simp only [List.map_cons, List.zipWith_cons_cons, List.sum_cons, ih]
    ring

theorem sum_map_get (g : ℝ → ℝ) (l : List ℝ) :
    (l.map g).sum = ∑ i : Fin l.length, g (l.get i) := by
  induction l with
  | nil => simp
  | cons a t ih =>
    rw [List.map_cons, List.sum_cons, ih]
    show g a + (∑ i : Fin t.length, g (t.get i)) =
      ∑ i : Fin (t.length + 1), g ((a :: t).get i)
    rw [Fin.sum_univ_succ]
    rfl

theorem denom_pos (n : ℕ) (f : Fin n → ℝ) (i j : Fin n) (hij : f i ≠ f j) :
    0 < (n : ℝ) * (∑ k, f k * f k) - (∑ k, f k) * (∑ k, f k) := by
  have hn : (0 : ℝ) < n := by exact_mod_cast i.pos
  have hexp : (∑ k, (f k - (∑ k, f k) / n) ^ 2) =
      (∑ k, f k * f k) - 2 * ((∑ k, f k) / n) * (∑ k, f k) +
        n * ((∑ k, f k) / n) ^ 2 := by
    have hterm : ∀ k : Fin n, (f k - (∑ k, f k) / n) ^ 2 =
        f k * f k - 2 * ((∑ k, f k) / n) * f k + ((∑ k, f k) / n) ^ 2 := fun k => by ring
    rw [Finset.sum_congr rfl (fun k _ => hterm k), Finset.sum_add_distrib,
      Finset.sum_sub_distrib, Finset.sum_const, Finset.card_univ, Fintype.card_fin,
      nsmul_eq_mul, ← Finset.mul_sum]
  have hvar : (n : ℝ) * (∑ k, f k * f k) - (∑ k, f k) * (∑ k, f k) =
      (n : ℝ) * ∑ k, (f k - (∑ k, f k) / n) ^ 2 := by
    rw [hexp]
    field_simp
    ring
  rw [hvar]
  have hone : ∃ k : Fin n, f k ≠ (∑ k, f k) / n := by
    by_cases hi : f i = (∑ k, f k) / n
    · exact ⟨j, fun hjq => hij (by rw [hi, hjq])⟩
    · exact ⟨i, hi⟩
  obtain ⟨k0, hk0⟩ := hone
  exact mul_pos hn
    (Finset.sum_pos' (fun k _ => sq_nonneg _)
      ⟨k0, Finset.mem_univ k0, pow_two_pos_of_ne_zero (sub_ne_zero.mpr hk0)⟩)

theorem list_denom_pos (xs : List ℝ) (i j : ℕ) (hi : i < xs.length)
    (hj : j < xs.length) (hij : xs.getD i 0 ≠ xs.getD j 0) :
    0 < (xs.length : ℝ) * (xs.map (fun v => v * v)).sum - xs.sum * xs.sum := by
  have h1 : xs.sum = ∑ k : Fin xs.length, xs.get k := by
    have h := sum_map_get (fun v => v) xs
    rwa [List.map_id'] at h
  have h2 : (xs.map (fun v => v * v)).sum = ∑ k : Fin xs.length, xs.get k * xs.get k :=
    sum_map_get (fun v => v * v) xs
  rw [h1, h2]
  refine denom_pos xs.length (fun k => xs.get k) ⟨i, hi⟩ ⟨j, hj⟩ ?_
  have h3 : xs.getD i 0 = xs[i] := List.getD_eq_getElem xs 0 hi
  have h4 : xs.getD j 0 = xs[j] := List.getD_eq_getElem xs 0 hj
  rw [h3, h4] at hij
  simpa using hij

theorem polyfit1_exact_line (xs : List ℝ) (m b : ℝ) (i j : ℕ)
    (hi : i < xs.length) (hj : j < xs.length) (hij : xs.getD i 0 ≠ xs.getD j 0) :
    polyfit1 xs (xs.map (fun v => m * v + b)) = (m, b) := by
  have hd := list_denom_pos xs i j hi hj hij
  have hn : (0 : ℝ) < xs.length := by
    exact_mod_cast Nat.lt_of_le_of_lt (Nat.zero_le i) hi
  unfold polyfit1
  dsimp only
  rw [sum_map_affine, sum_zip_affine]
  have hnum : (xs.length : ℝ) * (m * (xs.map (fun v => v * v)).sum + b * xs.sum) -
      xs.sum * (m * xs.sum + b * xs.length) =
      m * ((xs.length : ℝ) * (xs.map (fun v => v * v)).sum - xs.sum * xs.sum) := by
    ring
  rw [hnum, mul_div_assoc, div_self (ne_of_gt hd), mul_one]
  have hint : m * xs.sum + b * (xs.length : ℝ) - m * xs.sum = b * xs.length := by ring
  rw [hint, mul_div_assoc, div_self (ne_of_gt hn), mul_one]

theorem getD_map_lt (f : ℝ → ℝ) (xs : List ℝ) (i : ℕ) (hi : i < xs.length) :
    (xs.map f).getD i 0 = f (xs.getD i 0) := by
  rw [List.getD_eq_getElem (xs.map f) 0 (by simpa using hi),
    List.getD_eq_getElem xs 0 hi, List.getElem_map]

/-- C9: for equal-length temperature and log-diffusivity inputs whose
data lie exactly on the line `logD = mm·invT + bb` in inverse
temperature `invT = 1.0e4/(T+273.15)` (with at least two distinct
inverse temperatures), the Arrhenius fit returns exactly the 100-point
`np.linspace(lowD, highD, 100)` abscissa and reproduces the line
`mm·x + bb` at every one of those points; being a pure function of its
list arguments it cannot alter its inputs. -/
theorem make_Arrhenius_line_exact (celcius_list : List ℝ) (mm bb lowD highD : ℝ)
    (i j : ℕ) (hi : i < celcius_list.length) (hj : j < celcius_list.length)
    (hij : 1.0e4 / (celcius_list.getD i 0 + 273.15) ≠
      1.0e4 / (celcius_list.getD j 0 + 273.15)) :
    make_Arrhenius_line celcius_list
        (celcius_list.map (fun T => mm * (1.0e4 / (T + 273.15)) + bb)) lowD highD =
      some (linspace lowD highD 100, fun x => mm * linspace lowD highD 100 x + bb) := by
  unfold make_Arrhenius_line
  dsimp only
  rw [if_neg (by simp)]
  have hcomp : celcius_list.map (fun T => mm * (1.0e4 / (T + 273.15)) + bb) =
      (celcius_list.map (fun k => 1.0e4 / (k + 273.15))).map (fun v => mm * v + bb) := by
    rw [List.map_map]
    rfl
  rw [hcomp]
  have hlen : celcius_list.length = (celcius_list.map (fun k => 1.0e4 / (k + 273.15))).length := by
    simp
  rw [polyfit1_exact_line (celcius_list.map (fun k => 1.0e4 / (k + 273.15))) mm bb i j
    (hlen ▸ hi) (hlen ▸ hj)
    (by rwa [getD_map_lt _ _ i hi, getD_map_lt _ _ j hj])]

/-- Witness for C9: three temperatures on the line `logD = -2·invT - 5`. -/
theorem make_Arrhenius_line_exact_witness :
    make_Arrhenius_line [0, 100, 700]
        (([0, 100, 700] : List ℝ).map (fun T => -2 * (1.0e4 / (T + 273.15)) + -5)) 6 10 =
      some (linspace 6 10 100, fun x => -2 * linspace 6 10 100 x + -5) :=
  make_Arrhenius_line_exact [0, 100, 700] (-2) (-5) 6 10 0 1 (by norm_num) (by norm_num)
    (by norm_num [List.getD])

/-! Claim C10. -/

theorem getD_map_of_lt {α β : Type} (f : α → β) (xs : List α) (i : ℕ) (da : α) (db : β)
    (hi : i < xs.length) :
    (xs.map f).getD i db = f (xs.getD i da) := by
  rw [List.getD_eq_getElem (xs.map f) db (by simpa), List.getD_eq_getElem xs da hi,
    List.getElem_map]

theorem getD_linspaceQList (a b : ℚ) (n i : ℕ) (d : ℚ) (hi : i < n) :
    (linspaceQList a b n).getD i d = linspaceQ a b n i := by
  unfold linspaceQList
  rw [List.getD_eq_getElem _ d (by simpa), List.getElem_map, List.getElem_range]

theorem linspaceQList_length (a b : ℚ) (n : ℕ) : (linspaceQList a b n).length = n := by
  simp [linspaceQList]

theorem linspaceQ_zero (a b : ℚ) (n : ℕ) : linspaceQ a b n 0 = a := by
  unfold linspaceQ
  split <;> simp

theorem linspaceQ_last (a b : ℚ) (n : ℕ) (hn : 2 ≤ n) : linspaceQ a b n (n - 1) = b := by
  unfold linspaceQ
  rw [if_neg (by omega)]
  have h1 : ((n - 1 : ℕ) : ℚ) = (n : ℚ) - 1 := by
    have h : (1 : ℕ) ≤ n := by omega
    rw [Nat.cast_sub h, Nat.cast_one]
  have h2 : ((n : ℚ) - 1) ≠ 0 := by
    have h : (2 : ℚ) ≤ (n : ℚ) := by exact_mod_cast hn
    linarith
  rw [h1]
  field_simp

theorem shapeF_nan_left (erfFin : ℚ → ℚ) (u v : ℚ) (hu : u = 0) (hv : 0 < v) :
    F.sub (F.add (F.erfF erfFin (F.div (F.fin u) (F.fin 0)))
      (F.erfF erfFin (F.div (F.fin v) (F.fin 0)))) (F.fin 1) = F.nan := by
  subst hu
  have hv0 : ¬ v = 0 := hv.ne'
  simp [F.div, F.erfF, F.add, F.sub, F.neg, hv, hv0]

theorem shapeF_nan_right (erfFin : ℚ → ℚ) (u v : ℚ) (hu : 0 < u) (hv : v = 0) :
    F.sub (F.add (F.erfF erfFin (F.div (F.fin u) (F.fin 0)))
      (F.erfF erfFin (F.div (F.fin v) (F.fin 0)))) (F.fin 1) = F.nan := by
  subst hv
  have hu0 : ¬ u = 0 := hu.ne'
  simp [F.div, F.erfF, F.add, F.sub, F.neg, hu, hu0]

theorem reflectF_nan : F.sub (F.fin 1) F.nan = F.nan := by
  simp [F.sub, F.neg, F.add]

theorem rescaleF_nan (r mv : ℚ) :
    F.add (F.mul F.nan (F.fin r)) (F.fin mv) = F.nan := by
  simp [F.mul, F.add]

/-- C10: with `time_seconds = 0` (which satisfies the time ≥ 0
precondition), a positive length and at least two grid points, the
float-semantics erf-branch synthesis profile divides by zero:
`sqrtDt = 0`, at the slab edges `x = -a` and `x = +a` one of the two erf
arguments is `0/0 = nan`, and the returned model values at the first and
last positions are `nan` — whatever finite values the abstract
square-root, erf and power-of-ten primitives take. -/
theorem diffusion1D_paramsF_nan_edges (sqrtFin erfFin pow10 : ℚ → ℚ) (p : Params1DF)
    (pts : ℕ) (ht : p.time_seconds = 0) (hmic : 0 < p.microns) (hpts : 2 ≤ pts) :
    ∃ xs ys, diffusion1D_paramsF sqrtFin erfFin pow10 p pts = some (xs, ys) ∧
      ys.getD 0 (F.fin 0) = F.nan ∧ ys.getD (pts - 1) (F.fin 0) = F.nan := by
  have hA : 0 < p.microns / 1e6 / 2 := by positivity
  unfold diffusion1D_paramsF
  rw [ht, if_neg (by norm_num)]
  dsimp only
  rw [show F.mul (F.fin (pow10 p.log10D_m2s)) (F.fin 0) = F.fin 0 from by simp [F.mul],
    show F.powHalf sqrtFin (F.fin 0) = F.fin 0 from by simp [F.powHalf],
    show F.mul (F.fin 2) (F.fin 0) = F.fin 0 from by simp [F.mul]]
  refine ⟨_, _, rfl, ?_, ?_⟩
  · by_cases hgo : p.initial_unit_value > p.final_unit_value
    · simp only [if_pos hgo]
      rw [getD_map_of_lt _ _ 0 (F.fin 0) (F.fin 0)
          (by rw [List.length_map, linspaceQList_length]; omega),
        getD_map_of_lt _ _ 0 (0 : ℚ) (F.fin 0) (by rw [linspaceQList_length]; omega),
        getD_linspaceQList _ _ _ _ _ (by omega), linspaceQ_zero]
      rw [shapeF_nan_left erfFin (p.microns / 1e6 / 2 + -(p.microns / 1e6 / 2))
        (p.microns / 1e6 / 2 - -(p.microns / 1e6 / 2)) (by ring) (by linarith)]
      exact rescaleF_nan _ _
    · simp only [if_neg hgo]
      rw [getD_map_of_lt _ _ 0 (F.fin 0) (F.fin 0)
          (by rw [List.length_map, List.length_map, linspaceQList_length]; omega),
        getD_map_of_lt _ _ 0 (F.fin 0) (F.fin 0)
          (by rw [List.length_map, linspaceQList_length]; omega),
        getD_map_of_lt _ _ 0 (0 : ℚ) (F.fin 0) (by rw [linspaceQList_length]; omega),
        getD_linspaceQList _ _ _ _ _ (by omega), linspaceQ_zero]
      rw [shapeF_nan_left erfFin (p.microns / 1e6 / 2 + -(p.microns / 1e6 / 2))
        (p.microns / 1e6 / 2 - -(p.microns / 1e6 / 2)) (by ring) (by linarith),
        reflectF_nan]
      exact rescaleF_nan _ _
  · by_cases hgo : p.initial_unit_value > p.final_unit_value
    · simp only [if_pos hgo]
      rw [getD_map_of_lt _ _ (pts - 1) (F.fin 0) (F.fin 0)
          (by rw [List.length_map, linspaceQList_length]; omega),
        getD_map_of_lt _ _ (pts - 1) (0 : ℚ) (F.fin 0) (by rw [linspaceQList_length]; omega),
        getD_linspaceQList _ _ _ _ _ (by omega), linspaceQ_last _ _ _ hpts]
      rw [shapeF_nan_right erfFin (p.microns / 1e6 / 2 + p.microns / 1e6 / 2)
        (p.microns / 1e6 / 2 - p.microns / 1e6 / 2) (by linarith) (by ring)]
      exact rescaleF_nan _ _
    · simp only [if_neg hgo]
      rw [getD_map_of_lt _ _ (pts - 1) (F.fin 0) (F.fin 0)
          (by rw [List.length_map, List.length_map, linspaceQList_length]; omega),
        getD_map_of_lt _ _ (pts - 1) (F.fin 0) (F.fin 0)
          (by rw [List.length_map, linspaceQList_length]; omega),
        getD_map_of_lt _ _ (pts - 1) (0 : ℚ) (F.fin 0) (by rw [linspaceQList_length]; omega),
        getD_linspaceQList _ _ _ _ _ (by omega), linspaceQ_last _ _ _ hpts]
      rw [shapeF_nan_right erfFin (p.microns / 1e6 / 2 + p.microns / 1e6 / 2)
        (p.microns / 1e6 / 2 - p.microns / 1e6 / 2) (by linarith) (by ring),
        reflectF_nan]
      exact rescaleF_nan _ _

/-- Witness for C10 at a concrete input: 100 μm, `t = 0`, 4 points, with
identity stand-ins for the abstract finite primitives. -/
theorem diffusion1D_paramsF_nan_edges_witness :
    ∃ xs ys,
      diffusion1D_paramsF (fun q => q) (fun q => q) (fun q => q) PFex 4 = some (xs, ys) ∧
      ys.getD 0 (F.fin 0) = F.nan ∧ ys.getD (4 - 1) (F.fin 0) = F.nan :=
  diffusion1D_paramsF_nan_edges (fun q => q) (fun q => q) (fun q => q) PFex 4
    (by norm_num [PFex]) (by norm_num [PFex]) (by norm_num)

end Pynams
